import Mathlib

/-!
Verification of the Event-Horizon booking backend's core: the booking
transaction manager (`store/bookingStore.go`), the cascade deletion
coordinator (`store/eventStore.go`, `store/categoryStore.go`) and the expiry
reaper sweep, embedded shallowly over an explicit store state.

MongoDB collections are modeled as lists kept in insertion order; `FindOne`
is first-match lookup, `UpdateOne` updates the first matching document,
`DeleteOne` removes the first matching document, `DeleteMany` filters.
Sessions created with `WithTransaction` commit on success and roll back on
error, so a transactional operation that fails returns the unchanged state.
ObjectIDs are modeled as naturals handed out by a store counter, timestamps
as integers, Go `int` quantities as integers and `float64` prices as
rationals (all concrete prices in the claims are exactly representable).
-/

namespace EventHorizon

/-- Model of `models.TicketInfo`: one ticket class of an event. -/
structure TicketInfo where
  type : String
  price : ℚ
  totalQuantity : ℤ
  availableQuantity : ℤ
  deriving Repr, DecidableEq

/-- Model of `models.Event`. -/
structure Event where
  id : ℕ
  hostId : ℕ
  categoryName : String
  name : String
  description : String
  date : ℤ
  location : String
  imageUrl : String
  startTime : ℤ
  endTime : ℤ
  createdAt : ℤ
  tickets : List TicketInfo
  deriving Repr, DecidableEq

/-- Model of `models.Booking`. -/
structure Booking where
  id : ℕ
  userId : ℕ
  eventId : ℕ
  ticketType : String
  transactionId : String
  quantity : ℤ
  totalPaid : ℚ
  status : String
  bookedAt : ℤ
  deriving Repr, DecidableEq

/-- Model of `models.Category`. -/
structure Category where
  id : ℕ
  name : String
  createdAt : ℤ
  deriving Repr, DecidableEq

/-- The backing store: the three MongoDB collections in insertion order plus
the ObjectID generator. -/
structure DB where
  categories : List Category
  events : List Event
  bookings : List Booking
  nextId : ℕ
  deriving Repr, DecidableEq

/-- Mongo `UpdateOne`: apply `f` to the first element matching `p`. -/
def updateFirst (p : α → Bool) (f : α → α) : List α → List α
  | [] => []
  | x :: xs => if p x then f x :: xs else x :: updateFirst p f xs

/-- Mongo `DeleteOne`: remove the first element matching `p`, returning the
remaining list and the deleted count (0 or 1). -/
def deleteOne (p : α → Bool) : List α → List α × ℕ
  | [] => ([], 0)
  | x :: xs =>
    if p x then (xs, 1)
    else
      let r := deleteOne p xs
      (x :: r.1, r.2)

/-- Mongo `DeleteMany`: remove every element matching `p`, returning the
remaining list and the deleted count. -/
def deleteMany (p : α → Bool) (l : List α) : List α × ℕ :=
  (l.filter (fun x => !(p x)), (l.filter p).length)

/-- The caller-supplied fields of a `models.Booking` passed to
`BookingStore.CreateBooking` (id, totalPaid, status and bookedAt are
computed by the store). -/
structure BookingReq where
  userId : ℕ
  eventId : ℕ
  ticketType : String
  transactionId : String
  quantity : ℤ
  deriving Repr, DecidableEq

/-- Mongo `FindOne` on the Events collection by `_id`. -/
def findOneEvent (db : DB) (eventId : ℕ) : Option Event :=
  db.events.find? (fun e => e.id == eventId)

/-- The scan loop of CreateBooking/CancelBooking: the first ticket whose type
equals `t`, together with its index; `i` is the index of the head of `l` in
the full ticket list. -/
def findTicket (l : List TicketInfo) (t : String) (i : ℕ) : Option (TicketInfo × ℕ) :=
  match l with
  | [] => none
  | tk :: rest => if tk.type == t then some (tk, i) else findTicket rest t (i + 1)

/-- The positional `$set tickets.<i>.available_quantity` update. -/
def setTicketAvail : List TicketInfo → ℕ → ℤ → List TicketInfo
  | [], _, _ => []
  | tk :: rest, 0, v => { tk with availableQuantity := v } :: rest
  | tk :: rest, Nat.succ i, v => tk :: setTicketAvail rest i v

/-- The booking document as inserted by `CreateBooking`: the caller-supplied
fields plus the computed `totalPaid = price * quantity`, status "confirmed",
the `bookedAt` timestamp and the generated id. -/
def mkBooking (db : DB) (req : BookingReq) (tk : TicketInfo) (now : ℤ) : Booking :=
  { id := db.nextId
    userId := req.userId
    eventId := req.eventId
    ticketType := req.ticketType
    transactionId := req.transactionId
    quantity := req.quantity
    totalPaid := tk.price * (req.quantity : ℚ)
    status := "confirmed"
    bookedAt := now }

/-- The committed store of a successful `CreateBooking`: the booking insert
plus the positional write `tickets.<i>.available_quantity = available -
quantity` on the first event matching the id filter. -/
def commitBooking (db : DB) (req : BookingReq) (tk : TicketInfo) (i : ℕ) (now : ℤ) : DB :=
  { db with
      bookings := db.bookings ++ [mkBooking db req tk now]
      events := updateFirst (fun e => e.id == req.eventId)
        (fun e => { e with
          tickets := setTicketAvail e.tickets i (tk.availableQuantity - req.quantity) })
        db.events
      nextId := db.nextId + 1 }

/-- Model of `BookingStore.CreateBooking`: load the event, scan for the first ticket
class of the requested type, check availability, insert the populated
booking and write the decremented availability at the ticket's positional
slot. `WithTransaction` commits on success and rolls back on error, so an
`.error` result corresponds to the unchanged store. -/
def createBooking (db : DB) (req : BookingReq) (now : ℤ) : Except String (DB × Booking) :=
  match findOneEvent db req.eventId with
  | none => .error "event not found"
  | some event =>
    match findTicket event.tickets req.ticketType 0 with
    | none => .error "ticket type not found for this event"
    | some r =>
      if r.1.availableQuantity < req.quantity then
        .error "not enough tickets available"
      else
        .ok (commitBooking db req r.1 r.2 now, mkBooking db req r.1 now)

/-- The store state after a `CreateBooking` call: the committed state on
success, the rolled-back (unchanged) state on failure. -/
def createBookingRun (db : DB) (req : BookingReq) (now : ℤ) : DB :=
  match createBooking db req now with
  | .ok r => r.1
  | .error _ => db

/-- Model of `BookingStore.CancelBooking`: load the booking, reject if its status is
already "cancelled", restore the first matching ticket class's availability
when the owning event and ticket type still exist, and delete the booking
row. Transactional: commits on success, rolls back on error. -/
def cancelBooking (db : DB) (bookingId : ℕ) : Except String DB :=
  match db.bookings.find? (fun b => b.id == bookingId) with
  | none => .error "booking not found"
  | some booking =>
    if booking.status == "cancelled" then
      .error "booking already cancelled"
    else
      match findOneEvent db booking.eventId with
      | none =>
        .ok { db with bookings := (deleteOne (fun b => b.id == bookingId) db.bookings).1 }
      | some event =>
        match findTicket event.tickets booking.ticketType 0 with
        | none =>
          .ok { db with bookings := (deleteOne (fun b => b.id == bookingId) db.bookings).1 }
        | some r =>
          let newAvailableQuantity := r.1.availableQuantity + booking.quantity
          let events' := updateFirst (fun e => e.id == booking.eventId)
            (fun e => { e with tickets := setTicketAvail e.tickets r.2 newAvailableQuantity })
            db.events
          .ok { db with
                  events := events'
                  bookings := (deleteOne (fun b => b.id == bookingId) db.bookings).1 }

/-- Model of `BookingStore.GetBookingByID` (on an already-parsed id). -/
def getBookingByID (db : DB) (bookingId : ℕ) : Except String Booking :=
  match db.bookings.find? (fun b => b.id == bookingId) with
  | none => .error "booking not found"
  | some b => .ok b

/-- Model of `EventStore.GetEventByID` (on an already-parsed id). -/
def getEventByID (db : DB) (eventId : ℕ) : Except String Event :=
  match findOneEvent db eventId with
  | none => .error "event not found"
  | some e => .ok e

/-- Model of `CategoryStore.GetCategoryByID`. -/
def getCategoryByID (db : DB) (categoryId : ℕ) : Except String Category :=
  match db.categories.find? (fun c => c.id == categoryId) with
  | none => .error "category not found"
  | some c => .ok c

/-- ASCII case folding of one code point, as the regex option `i` applies
it to the names in play. -/
def foldCase (n : ℕ) : ℕ := if 65 ≤ n ∧ n ≤ 90 then n + 32 else n

/-- The anchored case-insensitive regex `^name$` with option `i`: the whole
strings are equal after ASCII case folding. -/
def matchNameCI (a b : String) : Bool :=
  a.data.map (fun c => foldCase c.toNat) == b.data.map (fun c => foldCase c.toNat)

/-- Model of `CategoryStore.GetCategoryByName`: `FindOne` under the anchored
case-insensitive regex match on `name`. -/
def getCategoryByName (db : DB) (categoryName : String) : Except String Category :=
  match db.categories.find? (fun c => matchNameCI c.name categoryName) with
  | none => .error "category not found"
  | some c => .ok c

/-- Model of `BookingStore.DeleteBookingsByEventID`: `DeleteMany` on `event_id`. -/
def deleteBookingsByEventID (db : DB) (eventId : ℕ) : DB × ℕ :=
  let r := deleteMany (fun b => b.eventId == eventId) db.bookings
  ({ db with bookings := r.1 }, r.2)

/-- Model of `CategoryStore.getEventsByCategory`: resolve the category by id, then
exact (case-sensitive) match on `category_name`. -/
def getEventsByCategory (db : DB) (categoryId : ℕ) : Except String (List Event) :=
  match getCategoryByID db categoryId with
  | .error e => .error e
  | .ok category => .ok (db.events.filter (fun e => e.categoryName == category.name))

/-- Model of `CategoryStore.GetCategoryEventCount`: `CountDocuments` with exact match
on `category_name`. -/
def getCategoryEventCount (db : DB) (categoryId : ℕ) : Except String ℕ :=
  match getCategoryByID db categoryId with
  | .error e => .error e
  | .ok category => .ok (db.events.filter (fun e => e.categoryName == category.name)).length

/-- Model of `CategoryStore.DeleteCategory` (non-cascading): refuse when the exact
`category_name` count is positive, otherwise `DeleteOne` the category. -/
def deleteCategory (db : DB) (categoryId : ℕ) : Except String DB :=
  match getCategoryEventCount db categoryId with
  | .error e => .error e
  | .ok count =>
    if count > 0 then .error "cannot delete category with existing events"
    else
      let r := deleteOne (fun c => c.id == categoryId) db.categories
      if r.2 == 0 then .error "category not found"
      else .ok { db with categories := r.1 }

/-- The booking-purge loop shared by `DeleteCategoryWithCascade` and
`DeleteExpiredEvents`: delete the bookings of each event of `l` in turn. -/
def purgeBookings (l : List Event) (db : DB) : DB :=
  l.foldl (fun d ev => (deleteBookingsByEventID d ev.id).1) db

/-- Model of `CategoryStore.DeleteCategoryWithCascade`: resolve the category, list its
events (exact name match), delete each event's bookings, bulk-delete the
matching events, then delete the category. The steps are sequential and not
wrapped in a transaction, so the state reached so far is kept even when a
later step fails. -/
def deleteCategoryWithCascade (db : DB) (categoryId : ℕ) : DB × Except String Unit :=
  match getCategoryByID db categoryId with
  | .error e => (db, .error e)
  | .ok category =>
    match getEventsByCategory db categoryId with
    | .error e => (db, .error e)
    | .ok events =>
      let db1 := purgeBookings events db
      let db2 := { db1 with
        events := (deleteMany (fun e : Event => e.categoryName == category.name) db1.events).1 }
      let r := deleteOne (fun c : Category => c.id == categoryId) db2.categories
      let db3 := { db2 with categories := r.1 }
      if r.2 == 0 then (db3, .error "category not found") else (db3, .ok ())

/-- Model of `EventStore.DeleteEvent` in the wired configuration (bookingStore set by
`main`): delete all bookings referencing the event, then `DeleteOne` the
event, failing when nothing matched. The two steps are not atomic, so the
booking deletions persist even when the second step fails. -/
def deleteEvent (db : DB) (eventId : ℕ) : DB × Except String Unit :=
  let db1 := (deleteBookingsByEventID db eventId).1
  let r := deleteOne (fun e => e.id == eventId) db1.events
  let db2 := { db1 with events := r.1 }
  if r.2 == 0 then (db2, .error "event not found") else (db2, .ok ())

/-- Model of `EventStore.DeleteExpiredEvents` in the wired configuration: find the
events with `end_time` strictly before `now`, delete each one's bookings,
then `DeleteMany` the expired events, returning the deleted count. -/
def deleteExpiredEvents (db : DB) (now : ℤ) : DB × ℕ :=
  let expiredEvents := db.events.filter (fun e => e.endTime < now)
  let db1 := purgeBookings expiredEvents db
  let r := deleteMany (fun e => e.endTime < now) db1.events
  ({ db1 with events := r.1 }, r.2)

/-- Model of `EventStore.CreateEvent`: category existence via the case-insensitive
`GetCategoryByName`, duplicate event-name check, then insert. -/
def createEvent (db : DB) (event : Event) (now : ℤ) : Except String DB :=
  match getCategoryByName db event.categoryName with
  | .error _ => .error ("category not found: " ++ event.categoryName)
  | .ok _ =>
    match db.events.find? (fun e => e.name == event.name) with
    | some _ => .error "event with the same name already exists"
    | none =>
      let ev := { event with createdAt := now, id := db.nextId }
      .ok { db with events := db.events ++ [ev], nextId := db.nextId + 1 }

/-- Serial execution of a list of `CreateBooking` calls (under serializable
isolation every concurrent schedule is equivalent to some serial order).
Returns the final state and the sum of the quantities granted to the calls
that succeeded. -/
def runBookings (db : DB) (reqs : List BookingReq) (now : ℤ) : DB × ℤ :=
  match reqs with
  | [] => (db, 0)
  | r :: rest =>
    match createBooking db r now with
    | .ok s =>
      let t := runBookings s.1 rest now
      (t.1, r.quantity + t.2)
    | .error _ => runBookings db rest now

/-- The per-ticket-class inventory invariant `0 ≤ available ≤ total`. -/
def TicketOK (tk : TicketInfo) : Prop :=
  0 ≤ tk.availableQuantity ∧ tk.availableQuantity ≤ tk.totalQuantity

/-- Every ticket class of the event satisfies the inventory invariant. -/
def EventOK (e : Event) : Prop := ∀ tk ∈ e.tickets, TicketOK tk

/-- Every event in the store satisfies the inventory invariant. -/
def InvOK (db : DB) : Prop := ∀ e ∈ db.events, EventOK e

instance : DecidablePred TicketOK := fun tk =>
  decidable_of_iff (0 ≤ tk.availableQuantity ∧ tk.availableQuantity ≤ tk.totalQuantity) Iff.rfl

instance : DecidablePred EventOK := fun e =>
  List.decidableBAll TicketOK e.tickets

instance : DecidablePred InvOK := fun db =>
  List.decidableBAll EventOK db.events

/-- Well-formed store: the `_id` fields handed out by the ObjectID generator
are pairwise distinct within each collection. -/
def WF (db : DB) : Prop :=
  (db.categories.map Category.id).Nodup ∧
  (db.events.map Event.id).Nodup ∧
  (db.bookings.map Booking.id).Nodup

instance : DecidablePred WF := fun db =>
  decidable_of_iff
    ((db.categories.map Category.id).Nodup ∧
     (db.events.map Event.id).Nodup ∧
     (db.bookings.map Booking.id).Nodup) Iff.rfl

/-- One core operation, for stating the inventory invariant across all of
them. -/
inductive Op where
  | create (req : BookingReq) (now : ℤ)
  | cancel (bookingId : ℕ)
  | delEvent (eventId : ℕ)
  | delExpired (now : ℤ)
  | delCat (categoryId : ℕ)
  | delCatCascade (categoryId : ℕ)
  deriving Repr, DecidableEq

/-- The store state after running one core operation; a failed transactional
operation rolls back to the original state, the non-atomic deletions keep
whatever they reached. -/
def applyOp (db : DB) : Op → DB
  | .create req now => createBookingRun db req now
  | .cancel bid =>
    match cancelBooking db bid with
    | .ok db' => db'
    | .error _ => db
  | .delEvent id => (deleteEvent db id).1
  | .delExpired now => (deleteExpiredEvents db now).1
  | .delCat cid =>
    match deleteCategory db cid with
    | .ok db' => db'
    | .error _ => db
  | .delCatCascade cid => (deleteCategoryWithCascade db cid).1

/-- Side conditions of the amended invariant claim: a creation request
carries a nonnegative quantity (the controller rejects `quantity <= 0`
before the store is reached), and a cancellation's restored quantity is
nonnegative and still fits under the matched class's total — the bound
`CancelBooking` itself never re-checks. -/
def opFits (db : DB) : Op → Bool
  | .create req _ => decide (0 ≤ req.quantity)
  | .cancel bid =>
    match db.bookings.find? (fun b => b.id == bid) with
    | none => true
    | some booking =>
      match findOneEvent db booking.eventId with
      | none => true
      | some event =>
        match findTicket event.tickets booking.ticketType 0 with
        | none => true
        | some r =>
          decide (0 ≤ booking.quantity) &&
          decide (r.1.availableQuantity + booking.quantity ≤ r.1.totalQuantity)
  | _ => true

/-! ### Concrete stores for the scenario checks -/

/-- Scenario A ticket class: `{type:"VIP", price:100, total:10, available:10}`. -/
def tkVIP : TicketInfo :=
  { type := "VIP", price := 100, totalQuantity := 10, availableQuantity := 10 }

/-- Scenario A event. -/
def evA : Event :=
  { id := 1, hostId := 7, categoryName := "Music", name := "Gig",
    description := "", date := 0, location := "Arena", imageUrl := "",
    startTime := 0, endTime := 100, createdAt := 0, tickets := [tkVIP] }

/-- Scenario A store: one category, one event, no bookings. -/
def dbA : DB :=
  { categories := [{ id := 9, name := "Music", createdAt := 0 }],
    events := [evA], bookings := [], nextId := 2 }

/-- Scenario A request: `CreateBooking(event, "VIP", 3, user)`. -/
def reqA : BookingReq :=
  { userId := 5, eventId := 1, ticketType := "VIP", transactionId := "tx", quantity := 3 }

/-- A request against a ticket type the event does not sell. -/
def reqGold : BookingReq := { reqA with ticketType := "Gold" }

/-- A request against an event id that resolves to nothing. -/
def reqMissing : BookingReq := { reqA with eventId := 99 }

/-- A request for more tickets than are available. -/
def reqBig : BookingReq := { reqA with quantity := 11 }

/-- An outstanding confirmed booking of 3 VIP tickets against `evA`. -/
def bkOut : Booking :=
  { id := 5, userId := 5, eventId := 1, ticketType := "VIP", transactionId := "tx",
    quantity := 3, totalPaid := 300, status := "confirmed", bookedAt := 0 }

/-- A store whose ticket classes satisfy `0 ≤ available ≤ total` but where an
outstanding booking's quantity no longer fits: `available = total = 10` with
a confirmed booking of 3 still present. -/
def dbFull : DB := { dbA with bookings := [bkOut], nextId := 6 }

/-- Scenario C events: two events of the category, each with one booking. -/
def evC1 : Event := { evA with id := 1, name := "Gig1" }

/-- Second scenario C event. -/
def evC2 : Event := { evA with id := 2, name := "Gig2" }

/-- Booking on the first scenario C event. -/
def bkC1 : Booking := { bkOut with id := 3, eventId := 1 }

/-- Booking on the second scenario C event. -/
def bkC2 : Booking := { bkOut with id := 4, eventId := 2 }

/-- Scenario C store: one category owning two events, each with one booking. -/
def dbC : DB :=
  { categories := [{ id := 9, name := "Music", createdAt := 0 }],
    events := [evC1, evC2], bookings := [bkC1, bkC2], nextId := 10 }

/-- Scenario D events: one already over (`end_time = 100`), one still ahead
(`end_time = 300`), swept at `now = 200`. -/
def evPast : Event := { evC1 with endTime := 100 }

/-- The not-yet-expired scenario D event. -/
def evFuture : Event := { evC2 with endTime := 300 }

/-- Scenario D store. -/
def dbD : DB := { dbC with events := [evPast, evFuture] }

/-- An event whose `category_name` differs from its category's stored name
only in letter case. -/
def evLower : Event := { evA with id := 2, name := "LowGig", categoryName := "music" }

/-- A booking on the case-mismatched event. -/
def bkLower : Booking := { bkOut with id := 3, eventId := 2 }

/-- Store with a category named `"Music"` and an event referencing it as
`"music"`. -/
def dbMismatch : DB :=
  { categories := [{ id := 1, name := "Music", createdAt := 0 }],
    events := [evLower], bookings := [bkLower], nextId := 4 }

/-- A fresh event creation request referencing the category as `"music"`. -/
def evNewLower : Event := { evLower with id := 0, name := "NewGig" }

/-- The store expected after creating `evNewLower` against `dbMismatch`. -/
def dbAfterCreateLower : DB :=
  { dbMismatch with
      events := dbMismatch.events ++ [{ evNewLower with id := dbMismatch.nextId }],
      nextId := dbMismatch.nextId + 1 }

/-- A store holding a booking whose owning event no longer exists. -/
def dbOrphan : DB := { dbA with bookings := [{ bkOut with eventId := 99 }] }

/-- The store left by cancelling `bkOut` against `dbFull`: the row is gone
and the VIP class's availability was restored without re-checking the
total. -/
def dbAfterCancel : DB :=
  { categories := dbA.categories,
    events := [{ evA with tickets := [{ tkVIP with availableQuantity := 13 }] }],
    bookings := [], nextId := 6 }

/-! ### Lemmas about the Mongo list primitives -/

theorem find?_updateFirst {p : α → Bool} {f : α → α} {l : List α} {a : α}
    (h : l.find? p = some a) (hf : ∀ x, p x = true → p (f x) = true) :
    (updateFirst p f l).find? p = some (f a) := by
  induction l with
  | nil => simp at h
  | cons x xs ih =>
    cases hx : p x with
    | true =>
      rw [List.find?_cons_of_pos _ hx] at h
      cases h
      simp [updateFirst, hx, List.find?_cons_of_pos _ (hf _ hx)]
    | false =>
      rw [List.find?_cons_of_neg _ (by simp [hx])] at h
      simp only [updateFirst, hx]
      simp only [Bool.false_eq_true, if_false]
      rw [List.find?_cons_of_neg _ (by simp [hx])]
      exact ih h

theorem mem_updateFirst {p : α → Bool} {f : α → α} {l : List α} {x : α}
    (h : x ∈ updateFirst p f l) : x ∈ l ∨ ∃ a ∈ l, x = f a := by
  induction l with
  | nil => simp [updateFirst] at h
  | cons y ys ih =>
    simp only [updateFirst] at h
    cases hy : p y with
    | true =>
      rw [hy] at h
      simp only [if_true, List.mem_cons] at h
      rcases h with h | h
      · exact Or.inr ⟨y, List.mem_cons_self y ys, h⟩
      · exact Or.inl (List.mem_cons_of_mem _ h)
    | false =>
      rw [hy] at h
      simp only [Bool.false_eq_true, if_false, List.mem_cons] at h
      rcases h with h | h
      · exact Or.inl (h ▸ List.mem_cons_self y ys)
      · rcases ih h with h' | ⟨a, ha, hfa⟩
        · exact Or.inl (List.mem_cons_of_mem _ h')
        · exact Or.inr ⟨a, List.mem_cons_of_mem _ ha, hfa⟩

theorem deleteOne_of_find?_eq_none {p : α → Bool} {l : List α}
    (h : l.find? p = none) : deleteOne p l = (l, 0) := by
  induction l with
  | nil => rfl
  | cons x xs ih =>
    rw [List.find?_eq_none] at h
    have hx : p x = false := by
      have := h x (List.mem_cons_self x xs)
      simpa using this
    have hxs : deleteOne p xs = (xs, 0) :=
      ih (List.find?_eq_none.mpr fun y hy => h y (List.mem_cons_of_mem _ hy))
    simp [deleteOne, hx, hxs]

theorem deleteOne_count_of_find?_eq_some {p : α → Bool} {l : List α} {a : α}
    (h : l.find? p = some a) : (deleteOne p l).2 = 1 := by
  induction l with
  | nil => simp at h
  | cons x xs ih =>
    cases hx : p x with
    | true => simp [deleteOne, hx]
    | false =>
      rw [List.find?_cons_of_neg _ (by simp [hx])] at h
      simp [deleteOne, hx, ih h]

theorem mem_deleteOne {p : α → Bool} {l : List α} {x : α}
    (h : x ∈ (deleteOne p l).1) : x ∈ l := by
  induction l with
  | nil => simp [deleteOne] at h
  | cons y ys ih =>
    cases hy : p y with
    | true =>
      simp only [deleteOne, hy, if_true] at h
      exact List.mem_cons_of_mem _ h
    | false =>
      simp only [deleteOne, hy, Bool.false_eq_true, if_false, List.mem_cons] at h
      rcases h with h | h
      · exact h ▸ List.mem_cons_self y ys
      · exact List.mem_cons_of_mem _ (ih h)

theorem deleteOne_append_singleton {p : α → Bool} {l : List α} {b : α}
    (hl : ∀ x ∈ l, p x = false) (hb : p b = true) :
    deleteOne p (l ++ [b]) = (l, 1) := by
  induction l with
  | nil => simp [deleteOne, hb]
  | cons x xs ih =>
    have hx : p x = false := hl x (List.mem_cons_self x xs)
    have hxs := ih fun y hy => hl y (List.mem_cons_of_mem _ hy)
    simp [deleteOne, hx, hxs]

theorem deleteOne_no_more {p : α → Bool} {l : List α}
    (h : (l.filter p).length ≤ 1) : ∀ x ∈ (deleteOne p l).1, p x = false := by
  induction l with
  | nil => simp [deleteOne]
  | cons y ys ih =>
    intro x hx
    cases hy : p y with
    | true =>
      simp only [deleteOne, hy, if_true] at hx
      have hfil : (ys.filter p).length = 0 := by
        rw [List.filter_cons_of_pos hy] at h
        simpa using h
      have hnil : ys.filter p = [] := List.length_eq_zero.mp hfil
      by_contra hpx
      have : x ∈ ys.filter p := List.mem_filter.mpr ⟨hx, by simpa using hpx⟩
      simp_all
    | false =>
      simp only [deleteOne, hy, Bool.false_eq_true, if_false, List.mem_cons] at hx
      rcases hx with rfl | hx
      · exact hy
      · refine ih ?_ x hx
        rwa [List.filter_cons_of_neg (by simp [hy])] at h

theorem findTicket_spec {l : List TicketInfo} {t : String} {n : ℕ}
    {tk : TicketInfo} {i : ℕ} (h : findTicket l t n = some (tk, i)) :
    ∃ j, i = n + j ∧ l.get? j = some tk ∧ tk.type = t := by
  induction l generalizing n with
  | nil => simp [findTicket] at h
  | cons x xs ih =>
    simp only [findTicket] at h
    cases hx : x.type == t with
    | true =>
      rw [hx] at h
      simp only [if_true, Option.some.injEq, Prod.mk.injEq] at h
      obtain ⟨rfl, rfl⟩ := h
      exact ⟨0, by omega, rfl, by simpa using hx⟩
    | false =>
      rw [hx] at h
      simp only [Bool.false_eq_true, if_false] at h
      obtain ⟨j, rfl, hget, hty⟩ := ih h
      exact ⟨j + 1, by omega, by simpa using hget, hty⟩

theorem findTicket_setTicketAvail {l : List TicketInfo} {t : String} {n : ℕ}
    {tk : TicketInfo} {i : ℕ} (v : ℤ) (h : findTicket l t n = some (tk, i)) :
    findTicket (setTicketAvail l (i - n) v) t n
      = some ({ tk with availableQuantity := v }, i) := by
  induction l generalizing n with
  | nil => simp [findTicket] at h
  | cons x xs ih =>
    simp only [findTicket] at h
    cases hx : x.type == t with
    | true =>
      rw [hx] at h
      simp only [if_true, Option.some.injEq, Prod.mk.injEq] at h
      obtain ⟨rfl, rfl⟩ := h
      simp [Nat.sub_self, setTicketAvail, findTicket, hx]
    | false =>
      rw [hx] at h
      simp only [Bool.false_eq_true, if_false] at h
      have hge : n + 1 ≤ i := by
        obtain ⟨j, rfl, -, -⟩ := findTicket_spec h
        omega
      have hsub : i - n = (i - (n + 1)) + 1 := by omega
      rw [hsub]
      simp only [setTicketAvail, findTicket, hx, Bool.false_eq_true, if_false]
      exact ih h

theorem setTicketAvail_same {l : List TicketInfo} {i : ℕ} {tk : TicketInfo}
    (h : l.get? i = some tk) : setTicketAvail l i tk.availableQuantity = l := by
  induction l generalizing i with
  | nil => simp at h
  | cons x xs ih =>
    cases i with
    | zero =>
      simp only [List.get?_cons_zero, Option.some.injEq] at h
      subst h
      rfl
    | succ j =>
      simp only [List.get?_cons_succ] at h
      simp [setTicketAvail, ih h]

theorem setTicketAvail_twice (l : List TicketInfo) (i : ℕ) (v w : ℤ) :
    setTicketAvail (setTicketAvail l i v) i w = setTicketAvail l i w := by
  induction l generalizing i with
  | nil => rfl
  | cons x xs ih =>
    cases i with
    | zero => rfl
    | succ j => simp [setTicketAvail, ih]

theorem mem_setTicketAvail {l : List TicketInfo} {i : ℕ} {v : ℤ} {x : TicketInfo}
    (h : x ∈ setTicketAvail l i v) :
    x ∈ l ∨ ∃ tk, l.get? i = some tk ∧ x = { tk with availableQuantity := v } := by
  induction l generalizing i with
  | nil => simp [setTicketAvail] at h
  | cons y ys ih =>
    cases i with
    | zero =>
      simp only [setTicketAvail, List.mem_cons] at h
      rcases h with h | h
      · exact Or.inr ⟨y, rfl, h⟩
      · exact Or.inl (List.mem_cons_of_mem _ h)
    | succ j =>
      simp only [setTicketAvail, List.mem_cons] at h
      rcases h with h | h
      · exact Or.inl (h ▸ List.mem_cons_self y ys)
      · rcases ih h with h' | ⟨tk, hget, hx⟩
        · exact Or.inl (List.mem_cons_of_mem _ h')
        · exact Or.inr ⟨tk, by simpa using hget, hx⟩

theorem purgeBookings_events (E : List Event) (db : DB) :
    (purgeBookings E db).events = db.events := by
  induction E generalizing db with
  | nil => rfl
  | cons e E' ih => simpa [purgeBookings, deleteBookingsByEventID] using ih _

theorem purgeBookings_categories (E : List Event) (db : DB) :
    (purgeBookings E db).categories = db.categories := by
  induction E generalizing db with
  | nil => rfl
  | cons e E' ih => simpa [purgeBookings, deleteBookingsByEventID] using ih _

theorem purgeBookings_nextId (E : List Event) (db : DB) :
    (purgeBookings E db).nextId = db.nextId := by
  induction E generalizing db with
  | nil => rfl
  | cons e E' ih => simpa [purgeBookings, deleteBookingsByEventID] using ih _

theorem mem_purgeBookings {E : List Event} {db : DB} {b : Booking} :
    b ∈ (purgeBookings E db).bookings ↔
      b ∈ db.bookings ∧ ∀ e ∈ E, b.eventId ≠ e.id := by
  induction E generalizing db with
  | nil => simp [purgeBookings]
  | cons e E' ih =>
    have step : purgeBookings (e :: E') db
        = purgeBookings E' (deleteBookingsByEventID db e.id).1 := rfl
    rw [step, ih]
    simp only [deleteBookingsByEventID, deleteMany, List.mem_filter, List.mem_cons]
    constructor
    · rintro ⟨⟨hb, hne⟩, hall⟩
      refine ⟨hb, ?_⟩
      intro e' he'
      rcases he' with rfl | he'
      · simpa using hne
      · exact hall e' he'
    · rintro ⟨hb, hall⟩
      refine ⟨⟨hb, ?_⟩, fun e' he' => hall e' (Or.inr he')⟩
      simpa using hall e (Or.inl rfl)

theorem find?_eq_some_of_unique {p : α → Bool} {l : List α} {x : α}
    (hx : x ∈ l) (hpx : p x = true) (huniq : ∀ y ∈ l, p y = true → y = x) :
    l.find? p = some x := by
  induction l with
  | nil => simp at hx
  | cons y ys ih =>
    cases hy : p y with
    | true =>
      rw [List.find?_cons_of_pos _ hy]
      exact congrArg some (huniq y (List.mem_cons_self y ys) hy)
    | false =>
      rw [List.find?_cons_of_neg _ (by simp [hy])]
      rcases List.mem_cons.mp hx with rfl | hx'
      · rw [hpx] at hy; cases hy
      · exact ih hx' (fun z hz => huniq z (List.mem_cons_of_mem _ hz))

theorem get?_setTicketAvail_self {l : List TicketInfo} {i : ℕ} {tk : TicketInfo}
    (v : ℤ) (h : l.get? i = some tk) :
    (setTicketAvail l i v).get? i = some { tk with availableQuantity := v } := by
  induction l generalizing i with
  | nil => simp at h
  | cons x xs ih =>
    cases i with
    | zero =>
      simp only [List.get?_cons_zero, Option.some.injEq] at h
      subst h
      rfl
    | succ j =>
      simp only [List.get?_cons_succ] at h
      simpa [setTicketAvail] using ih h

theorem get?_setTicketAvail_ne (l : List TicketInfo) {i j : ℕ} (v : ℤ)
    (h : j ≠ i) : (setTicketAvail l i v).get? j = l.get? j := by
  induction l generalizing i j with
  | nil => simp [setTicketAvail]
  | cons x xs ih =>
    cases i with
    | zero =>
      cases j with
      | zero => exact absurd rfl h
      | succ j' => simp [setTicketAvail]
    | succ i' =>
      cases j with
      | zero => simp [setTicketAvail]
      | succ j' => simpa [setTicketAvail] using ih (by omega)

/-! ### Step lemmas for the booking transaction -/

theorem createBooking_ok {db : DB} {req : BookingReq} {now : ℤ} {ev : Event}
    {tk : TicketInfo} {i : ℕ}
    (hev : findOneEvent db req.eventId = some ev)
    (htk : findTicket ev.tickets req.ticketType 0 = some (tk, i))
    (havail : req.quantity ≤ tk.availableQuantity) :
    createBooking db req now
      = .ok (commitBooking db req tk i now, mkBooking db req tk now) := by
  unfold createBooking
  rw [hev]
  dsimp only
  rw [htk]
  dsimp only
  rw [if_neg (not_lt.mpr havail)]

theorem createBooking_insufficient {db : DB} {req : BookingReq} {now : ℤ}
    {ev : Event} {tk : TicketInfo} {i : ℕ}
    (hev : findOneEvent db req.eventId = some ev)
    (htk : findTicket ev.tickets req.ticketType 0 = some (tk, i))
    (havail : tk.availableQuantity < req.quantity) :
    createBooking db req now = .error "not enough tickets available" := by
  unfold createBooking
  rw [hev]
  dsimp only
  rw [htk]
  dsimp only
  rw [if_pos havail]

theorem commitBooking_findOneEvent {db : DB} {req : BookingReq} {tk : TicketInfo}
    {i : ℕ} {now : ℤ} {ev : Event}
    (hev : findOneEvent db req.eventId = some ev) :
    findOneEvent (commitBooking db req tk i now) req.eventId
      = some { ev with
          tickets := setTicketAvail ev.tickets i (tk.availableQuantity - req.quantity) } := by
  exact find?_updateFirst hev fun x hx => hx

theorem findTicket_get {l : List TicketInfo} {t : String} {tk : TicketInfo}
    {i : ℕ} (h : findTicket l t 0 = some (tk, i)) : l.get? i = some tk := by
  obtain ⟨j, hj, hg, -⟩ := findTicket_spec h
  have : j = i := by omega
  exact this ▸ hg

/-! ### Claim theorems -/

/-- C3: a successful `CreateBooking` — event found, a first ticket class of
the requested type matched at index `i`, `quantity > 0`, `available ≥
quantity` — returns a booking with `totalPaid = price * quantity` computed
from the first matching class, status "confirmed" and the freshly generated
id, and decreases exactly the matched class's available count by `quantity`,
leaving every other positional slot of the event unchanged. -/
theorem createBooking_success_spec {db : DB} {req : BookingReq} {now : ℤ}
    {ev : Event} {tk : TicketInfo} {i : ℕ}
    (hev : findOneEvent db req.eventId = some ev)
    (htk : findTicket ev.tickets req.ticketType 0 = some (tk, i))
    (hq : 0 < req.quantity)
    (havail : req.quantity ≤ tk.availableQuantity) :
    ∃ db' b, createBooking db req now = .ok (db', b) ∧
      b.totalPaid = tk.price * (req.quantity : ℚ) ∧
      b.status = "confirmed" ∧
      b.id = db.nextId ∧
      b.quantity = req.quantity ∧
      ∃ ev', findOneEvent db' req.eventId = some ev' ∧
        ev'.tickets.get? i
          = some { tk with availableQuantity := tk.availableQuantity - req.quantity } ∧
        ∀ j, j ≠ i → ev'.tickets.get? j = ev.tickets.get? j := by
  refine ⟨commitBooking db req tk i now, mkBooking db req tk now,
    createBooking_ok hev htk havail, rfl, rfl, rfl, rfl,
    _, commitBooking_findOneEvent hev, ?_, ?_⟩
  · exact get?_setTicketAvail_self _ (findTicket_get htk)
  · intro j hj
    exact get?_setTicketAvail_ne _ _ hj

/-- Witness for C3, scenario A: ticket class
`{type:"VIP", price:100, total:10, available:10}`,
`CreateBooking(event, "VIP", 3, user)` succeeds with `available = 7` and
`totalPaid = 300`. -/
theorem createBooking_success_spec_witness :
    (∃ db' b, createBooking dbA reqA 50 = .ok (db', b) ∧
      b.totalPaid = tkVIP.price * (reqA.quantity : ℚ) ∧
      b.status = "confirmed" ∧
      b.id = dbA.nextId ∧
      b.quantity = reqA.quantity ∧
      ∃ ev', findOneEvent db' reqA.eventId = some ev' ∧
        ev'.tickets.get? 0
          = some { tkVIP with availableQuantity := tkVIP.availableQuantity - reqA.quantity } ∧
        ∀ j, j ≠ 0 → ev'.tickets.get? j = evA.tickets.get? j) ∧
    (createBookingRun dbA reqA 50).events
      = [{ evA with tickets := [{ tkVIP with availableQuantity := 7 }] }] ∧
    (mkBooking dbA reqA tkVIP 50).totalPaid = 300 :=
  ⟨createBooking_success_spec rfl rfl (by decide) (by decide), by rfl,
   by norm_num [mkBooking, tkVIP, reqA]⟩

/-- C4: `CreateBooking` fails with "event not found" when the event id
resolves to nothing, "ticket type not found for this event" when no ticket
class of the event matches the requested type, and "not enough tickets
available" when the first matching class has `available < quantity`; every
failure aborts the transaction, so the store is unchanged — no booking row
and no inventory write survives. -/
theorem createBooking_failure_spec (db : DB) (req : BookingReq) (now : ℤ) :
    (findOneEvent db req.eventId = none →
      createBooking db req now = .error "event not found") ∧
    (∀ ev, findOneEvent db req.eventId = some ev →
      findTicket ev.tickets req.ticketType 0 = none →
      createBooking db req now = .error "ticket type not found for this event") ∧
    (∀ ev tk i, findOneEvent db req.eventId = some ev →
      findTicket ev.tickets req.ticketType 0 = some (tk, i) →
      tk.availableQuantity < req.quantity →
      createBooking db req now = .error "not enough tickets available") ∧
    (∀ e, createBooking db req now = .error e → createBookingRun db req now = db) := by
  refine ⟨?_, ?_, ?_, ?_⟩
  · intro h
    unfold createBooking
    rw [h]
  · intro ev hev htk
    unfold createBooking
    rw [hev]
    dsimp only
    rw [htk]
  · intro ev tk i hev htk hlt
    exact createBooking_insufficient hev htk hlt
  · intro e he
    unfold createBookingRun
    rw [he]

/-- Witness for C4: against scenario A's store, a request for a missing
event id, a request for an unsold ticket type, and a request for 11 of the
10 available VIP tickets fail with the three respective errors, and the
failed call leaves the store unchanged. -/
theorem createBooking_failure_spec_witness :
    createBooking dbA reqMissing 0 = .error "event not found" ∧
    createBooking dbA reqGold 0 = .error "ticket type not found for this event" ∧
    createBooking dbA reqBig 0 = .error "not enough tickets available" ∧
    createBookingRun dbA reqBig 0 = dbA :=
  ⟨(createBooking_failure_spec dbA reqMissing 0).1 rfl,
   (createBooking_failure_spec dbA reqGold 0).2.1 evA rfl rfl,
   (createBooking_failure_spec dbA reqBig 0).2.2.1 evA tkVIP 0 rfl rfl (by decide),
   (createBooking_failure_spec dbA reqBig 0).2.2.2 "not enough tickets available"
     ((createBooking_failure_spec dbA reqBig 0).2.2.1 evA tkVIP 0 rfl rfl (by decide))⟩

/-- C9: `DeleteEvent` runs two sequential, non-atomic steps: it always
deletes every booking referencing the event id first, then `DeleteOne`s the
event, and it reports "event not found" exactly when no event matched the
second step; in that failure case the events are untouched but the booking
deletions of the first step persist. -/
theorem deleteEvent_spec (db : DB) (eventId : ℕ) :
    (deleteEvent db eventId).1.bookings
      = db.bookings.filter (fun b => !(b.eventId == eventId)) ∧
    ((deleteEvent db eventId).2 = .error "event not found" ↔
      ∀ e ∈ db.events, e.id ≠ eventId) ∧
    ((deleteEvent db eventId).2 = .error "event not found" →
      (deleteEvent db eventId).1.events = db.events) := by
  cases hf : db.events.find? (fun e => e.id == eventId) with
  | none =>
    have hdel : deleteOne (fun e => e.id == eventId) db.events = (db.events, 0) :=
      deleteOne_of_find?_eq_none hf
    have hall := List.find?_eq_none.mp hf
    refine ⟨?_, ⟨fun _ e he => by simpa using hall e he, fun _ => ?_⟩, fun _ => ?_⟩ <;>
      simp [deleteEvent, deleteBookingsByEventID, deleteMany, hdel]
  | some a =>
    have hcnt : (deleteOne (fun e => e.id == eventId) db.events).2 = 1 :=
      deleteOne_count_of_find?_eq_some hf
    have hok : (deleteEvent db eventId).2 = .ok () := by
      simp [deleteEvent, deleteBookingsByEventID, deleteMany, hcnt]
    refine ⟨?_, ⟨fun h => ?_, fun h => ?_⟩, fun h => ?_⟩
    · simp [deleteEvent, deleteBookingsByEventID, deleteMany, hcnt]
    · rw [hok] at h; cases h
    · have hpa := List.find?_some hf
      have hma := List.mem_of_find?_eq_some hf
      exact absurd (by simpa using hpa) (h a hma)
    · rw [hok] at h; cases h

/-- Witness for C9: deleting event id 99 from a store that has no such
event but one booking referencing it fails "event not found", yet the
booking is gone afterwards. -/
theorem deleteEvent_spec_witness :
    (deleteEvent dbOrphan 99).1.bookings = [] ∧
    (deleteEvent dbOrphan 99).2 = .error "event not found" :=
  ⟨((deleteEvent_spec dbOrphan 99).1).trans (by rfl),
   (deleteEvent_spec dbOrphan 99).2.1.mpr (by decide)⟩

theorem cancelBooking_ok_bookings {db : DB} {bid : ℕ} {db' : DB}
    (h : cancelBooking db bid = .ok db') :
    db'.bookings = (deleteOne (fun b => b.id == bid) db.bookings).1 := by
  unfold cancelBooking at h
  cases hfb : db.bookings.find? (fun b => b.id == bid) with
  | none => rw [hfb] at h; cases h
  | some booking =>
    rw [hfb] at h
    dsimp only at h
    cases hst : booking.status == "cancelled" with
    | true => rw [hst] at h; simp at h
    | false =>
      rw [hst] at h
      simp only [Bool.false_eq_true, if_false] at h
      cases hfe : findOneEvent db booking.eventId with
      | none =>
        rw [hfe] at h
        cases h
        rfl
      | some event =>
        rw [hfe] at h
        dsimp only at h
        cases hft : findTicket event.tickets booking.ticketType 0 with
        | none =>
          rw [hft] at h
          cases h
          rfl
        | some r =>
          rw [hft] at h
          cases h
          rfl

/-- C6: once a `CancelBooking` call on an id has succeeded, a second call on
the same id fails with "booking not found" rather than "booking already
cancelled": the first call physically deleted the row, and ids are unique,
so the status check that would produce "booking already cancelled" is never
reached. -/
theorem cancelBooking_twice {db : DB} {bid : ℕ} {db' : DB}
    (huniq : (db.bookings.filter (fun b => b.id == bid)).length ≤ 1)
    (h : cancelBooking db bid = .ok db') :
    cancelBooking db' bid = .error "booking not found" := by
  have hb := cancelBooking_ok_bookings h
  have hnone : db'.bookings.find? (fun b => b.id == bid) = none := by
    rw [hb, List.find?_eq_none]
    intro x hx
    simpa using deleteOne_no_more huniq x hx
  unfold cancelBooking
  rw [hnone]

/-- Witness for C6: cancelling booking 5 of `dbFull` succeeds and removes
the row; cancelling id 5 again reports "booking not found". -/
theorem cancelBooking_twice_witness :
    (dbFull.bookings.filter (fun b => b.id == 5)).length ≤ 1 ∧
    cancelBooking dbFull 5 = .ok dbAfterCancel ∧
    cancelBooking dbAfterCancel 5 = .error "booking not found" :=
  ⟨by decide, by rfl, @cancelBooking_twice dbFull 5 dbAfterCancel (by decide) (by rfl)⟩

theorem updateFirst_updateFirst {p : α → Bool} (f g : α → α) (l : List α)
    (hf : ∀ x, p x = true → p (f x) = true) :
    updateFirst p g (updateFirst p f l) = updateFirst p (fun x => g (f x)) l := by
  induction l with
  | nil => rfl
  | cons x xs ih =>
    cases hx : p x with
    | true => simp [updateFirst, hx, hf x hx]
    | false => simp [updateFirst, hx, ih]

theorem updateFirst_of_find? {p : α → Bool} {f : α → α} {l : List α} {a : α}
    (hfind : l.find? p = some a) (hfa : f a = a) : updateFirst p f l = l := by
  induction l with
  | nil => simp at hfind
  | cons x xs ih =>
    cases hx : p x with
    | true =>
      rw [List.find?_cons_of_pos _ hx] at hfind
      cases hfind
      simp [updateFirst, hx, hfa]
    | false =>
      rw [List.find?_cons_of_neg _ (by simp [hx])] at hfind
      simp [updateFirst, hx, ih hfind]

theorem mem_updateFirst_find? {p : α → Bool} {f : α → α} {l : List α} {a x : α}
    (hfind : l.find? p = some a) (hx : x ∈ updateFirst p f l) : x ∈ l ∨ x = f a := by
  induction l with
  | nil => simp at hfind
  | cons y ys ih =>
    cases hy : p y with
    | true =>
      rw [List.find?_cons_of_pos _ hy] at hfind
      cases hfind
      simp only [updateFirst, hy, if_true, List.mem_cons] at hx
      rcases hx with rfl | hx
      · exact Or.inr rfl
      · exact Or.inl (List.mem_cons_of_mem _ hx)
    | false =>
      rw [List.find?_cons_of_neg _ (by simp [hy])] at hfind
      simp only [updateFirst, hy, Bool.false_eq_true, if_false, List.mem_cons] at hx
      rcases hx with rfl | hx
      · exact Or.inl (List.mem_cons_self _ _)
      · rcases ih hfind hx with h | h
        · exact Or.inl (List.mem_cons_of_mem _ h)
        · exact Or.inr h

theorem deleteEvent_events (db : DB) (eventId : ℕ) :
    (deleteEvent db eventId).1.events
      = (deleteOne (fun e => e.id == eventId) db.events).1 := by
  unfold deleteEvent deleteBookingsByEventID deleteMany
  dsimp only
  split <;> rfl

theorem deleteExpiredEvents_events (db : DB) (now : ℤ) :
    (deleteExpiredEvents db now).1.events
      = db.events.filter (fun e => !(decide (e.endTime < now))) := by
  unfold deleteExpiredEvents deleteMany
  dsimp only
  rw [purgeBookings_events]

theorem deleteCategory_ok_events {db : DB} {cid : ℕ} {db' : DB}
    (h : deleteCategory db cid = .ok db') : db'.events = db.events := by
  unfold deleteCategory at h
  split at h
  · cases h
  · split at h
    · cases h
    · dsimp only at h
      split at h
      · cases h
      · cases h
        rfl

theorem mem_cascade_events {db : DB} {cid : ℕ} {e : Event}
    (he : e ∈ (deleteCategoryWithCascade db cid).1.events) : e ∈ db.events := by
  unfold deleteCategoryWithCascade at he
  cases h1 : getCategoryByID db cid with
  | error s => rw [h1] at he; exact he
  | ok category =>
    rw [h1] at he
    dsimp only at he
    cases h2 : getEventsByCategory db cid with
    | error s => rw [h2] at he; exact he
    | ok events =>
      rw [h2] at he
      dsimp only at he
      split at he <;>
      · dsimp only at he
        rw [purgeBookings_events] at he
        simp only [deleteMany] at he
        exact (List.mem_filter.mp he).1

/-- C5: a successful `CreateBooking` immediately followed by `CancelBooking`
on the returned booking id (no interleaved operation) restores the event
list — in particular the matched class's available count — to exactly its
pre-booking state, removes the booking row, and a subsequent
`GetBookingByID` on that id fails with "booking not found". -/
theorem createThenCancel_roundtrip {db : DB} {req : BookingReq} {now : ℤ}
    {ev : Event} {tk : TicketInfo} {i : ℕ}
    (hev : findOneEvent db req.eventId = some ev)
    (htk : findTicket ev.tickets req.ticketType 0 = some (tk, i))
    (havail : req.quantity ≤ tk.availableQuantity)
    (hfresh : ∀ bk ∈ db.bookings, bk.id ≠ db.nextId) :
    ∃ db' b, createBooking db req now = .ok (db', b) ∧
      ∃ db2, cancelBooking db' b.id = .ok db2 ∧
        db2.events = db.events ∧
        db2.bookings = db.bookings ∧
        getBookingByID db2 b.id = .error "booking not found" := by
  refine ⟨commitBooking db req tk i now, mkBooking db req tk now,
    createBooking_ok hev htk havail, ?_⟩
  have hfind : (commitBooking db req tk i now).bookings.find?
      (fun x => x.id == (mkBooking db req tk now).id) = some (mkBooking db req tk now) := by
    apply find?_eq_some_of_unique
    · exact List.mem_append_right _ (List.mem_singleton.mpr rfl)
    · simp
    · intro y hy hpy
      rcases List.mem_append.mp hy with hyl | hyr
      · have : y.id = db.nextId := by simpa [mkBooking] using hpy
        exact absurd this (hfresh y hyl)
      · simpa using hyr
  have hft2 : findTicket
      (setTicketAvail ev.tickets i (tk.availableQuantity - req.quantity))
      req.ticketType 0
      = some ({ tk with availableQuantity := tk.availableQuantity - req.quantity }, i) := by
    simpa using findTicket_setTicketAvail (tk.availableQuantity - req.quantity) htk
  unfold cancelBooking
  rw [hfind]
  dsimp only
  rw [if_neg (by simp [mkBooking])]
  rw [show (mkBooking db req tk now).eventId = req.eventId from rfl,
    commitBooking_findOneEvent hev]
  dsimp only
  rw [show (mkBooking db req tk now).ticketType = req.ticketType from rfl, hft2]
  dsimp only
  refine ⟨_, rfl, ?_, ?_, ?_⟩
  · dsimp only [commitBooking, mkBooking]
    rw [@updateFirst_updateFirst Event (fun e => e.id == req.eventId)
      (fun e => { e with
        tickets := setTicketAvail e.tickets i (tk.availableQuantity - req.quantity) })
      (fun e => { e with
        tickets := setTicketAvail e.tickets i (tk.availableQuantity - req.quantity + req.quantity) })
      db.events (fun x hx => hx)]
    apply updateFirst_of_find? hev
    dsimp only
    rw [setTicketAvail_twice, sub_add_cancel, setTicketAvail_same (findTicket_get htk)]
  · dsimp only [commitBooking, mkBooking]
    rw [deleteOne_append_singleton (fun x hx => by simpa using hfresh x hx) (by simp)]
  · unfold getBookingByID
    dsimp only [commitBooking, mkBooking]
    rw [deleteOne_append_singleton (fun x hx => by simpa using hfresh x hx) (by simp)]
    rw [List.find?_eq_none.mpr (fun x hx => by simpa using hfresh x hx)]

/-- Witness for C5, scenario A: booking 3 VIP tickets and cancelling the
returned id restores `available` to 10 and makes the booking
unretrievable. -/
theorem createThenCancel_roundtrip_witness :
    ∃ db' b, createBooking dbA reqA 50 = .ok (db', b) ∧
      ∃ db2, cancelBooking db' b.id = .ok db2 ∧
        db2.events = dbA.events ∧
        db2.bookings = dbA.bookings ∧
        getBookingByID db2 b.id = .error "booking not found" :=
  createThenCancel_roundtrip rfl rfl (by decide) (by simp [dbA])

/-- C2 fails as stated for `CancelBooking`: in `dbFull` every ticket class
satisfies `0 ≤ available ≤ total` (available = total = 10), yet cancelling
the outstanding booking of 3 restores `available` to 13 > total — the code
never re-checks the upper bound when restoring. -/
theorem invariant_cancel_counterexample :
    InvOK dbFull ∧ cancelBooking dbFull 5 = .ok dbAfterCancel ∧ ¬ InvOK dbAfterCancel :=
  ⟨by decide, by rfl, by decide⟩

/-- C2 amended: every core operation preserves `0 ≤ available ≤ total`,
provided a creation request's quantity is nonnegative (the controller
rejects `quantity ≤ 0` before the store runs) and, for `CancelBooking`, the
restored quantity is nonnegative and still fits under the matched class's
total (`opFits`) — a bound the code itself never re-checks, without which
the deletion operations and `CreateBooking` still preserve the invariant
but cancellation can push `available` above `total`. -/
theorem invariant_preservation {db : DB} {op : Op}
    (hinv : InvOK db) (hfit : opFits db op = true) :
    InvOK (applyOp db op) := by
  cases op with
  | create req now =>
    unfold opFits at hfit
    rw [decide_eq_true_eq] at hfit
    unfold applyOp
    dsimp only
    unfold createBookingRun
    cases hev : findOneEvent db req.eventId with
    | none =>
      unfold createBooking
      rw [hev]
      exact hinv
    | some ev =>
      cases htk : findTicket ev.tickets req.ticketType 0 with
      | none =>
        unfold createBooking
        rw [hev]
        dsimp only
        rw [htk]
        exact hinv
      | some r =>
        by_cases hlt : r.1.availableQuantity < req.quantity
        · rw [createBooking_insufficient hev htk hlt]
          exact hinv
        · rw [createBooking_ok hev htk (not_lt.mp hlt)]
          dsimp only [commitBooking]
          intro e he
          rcases mem_updateFirst_find? hev he with he' | rfl
          · exact hinv e he'
          · intro tkx htkx
            dsimp only at htkx
            rcases mem_setTicketAvail htkx with h1 | ⟨tk0, hget, rfl⟩
            · exact hinv ev (List.mem_of_find?_eq_some hev) tkx h1
            · have htk0 : tk0 = r.1 := by
                have hg : ev.tickets.get? r.2 = some r.1 := findTicket_get htk
                rw [hg] at hget
                exact (Option.some.injEq _ _).mp hget.symm
              subst htk0
              obtain ⟨h1, h2⟩ := hinv ev (List.mem_of_find?_eq_some hev) r.1 (List.get?_mem hget)
              exact ⟨by dsimp only; omega, by dsimp only; omega⟩
  | cancel bid =>
    unfold applyOp
    dsimp only
    cases hfb : db.bookings.find? (fun b => b.id == bid) with
    | none =>
      unfold cancelBooking
      rw [hfb]
      exact hinv
    | some booking =>
      unfold cancelBooking
      rw [hfb]
      dsimp only
      cases hst : booking.status == "cancelled" with
      | true => exact hinv
      | false =>
        simp only [Bool.false_eq_true, if_false]
        cases hfe : findOneEvent db booking.eventId with
        | none => exact hinv
        | some event =>
          dsimp only
          cases hft : findTicket event.tickets booking.ticketType 0 with
          | none => exact hinv
          | some r =>
            dsimp only
            unfold opFits at hfit
            dsimp only at hfit
            rw [hfb] at hfit
            dsimp only at hfit
            rw [hfe] at hfit
            dsimp only at hfit
            rw [hft] at hfit
            dsimp only at hfit
            simp only [Bool.and_eq_true, decide_eq_true_eq] at hfit
            obtain ⟨hq0, hfitle⟩ := hfit
            intro e he
            rcases mem_updateFirst_find? hfe he with he' | rfl
            · exact hinv e he'
            · intro tkx htkx
              dsimp only at htkx
              rcases mem_setTicketAvail htkx with h1 | ⟨tk0, hget, rfl⟩
              · exact hinv event (List.mem_of_find?_eq_some hfe) tkx h1
              · have htk0 : tk0 = r.1 := by
                  have hg : event.tickets.get? r.2 = some r.1 := findTicket_get hft
                  rw [hg] at hget
                  exact (Option.some.injEq _ _).mp hget.symm
                subst htk0
                obtain ⟨h1, h2⟩ :=
                  hinv event (List.mem_of_find?_eq_some hfe) r.1 (List.get?_mem hget)
                exact ⟨by dsimp only; omega, by dsimp only; omega⟩
  | delEvent id =>
    unfold applyOp
    dsimp only
    intro e he
    rw [deleteEvent_events] at he
    exact hinv e (mem_deleteOne he)
  | delExpired now =>
    unfold applyOp
    dsimp only
    intro e he
    rw [deleteExpiredEvents_events] at he
    exact hinv e (List.mem_filter.mp he).1
  | delCat cid =>
    unfold applyOp
    dsimp only
    cases h : deleteCategory db cid with
    | ok db' =>
      dsimp only
      intro e he
      rw [deleteCategory_ok_events h] at he
      exact hinv e he
    | error s => exact hinv
  | delCatCascade cid =>
    unfold applyOp
    dsimp only
    intro e he
    exact hinv e (mem_cascade_events he)

/-- Witness for the amended C2: scenario A's store satisfies the invariant
and still satisfies it after booking 3 VIP tickets. -/
theorem invariant_preservation_witness :
    InvOK dbA ∧ opFits dbA (Op.create reqA 0) = true ∧
      InvOK (applyOp dbA (Op.create reqA 0)) :=
  ⟨by decide, by decide, invariant_preservation (by decide) (by decide)⟩

theorem runBookings_le {db : DB} {eid : ℕ} {t : String} {i : ℕ} {a : ℤ}
    (reqs : List BookingReq) (now : ℤ)
    (hstate : ∃ ev tk, findOneEvent db eid = some ev ∧
      findTicket ev.tickets t 0 = some (tk, i) ∧ tk.availableQuantity = a)
    (ha : 0 ≤ a)
    (hreqs : ∀ r ∈ reqs, r.eventId = eid ∧ r.ticketType = t) :
    (runBookings db reqs now).2 ≤ a := by
  induction reqs generalizing db a with
  | nil => simpa [runBookings] using ha
  | cons r rest ih =>
    obtain ⟨ev, tk, hev, htk, hak⟩ := hstate
    obtain ⟨hre, hrt⟩ := hreqs r (List.mem_cons_self r rest)
    subst hre hrt
    by_cases hlt : tk.availableQuantity < r.quantity
    · have herr := @createBooking_insufficient db r now ev tk i hev htk hlt
      simp only [runBookings, herr]
      exact ih ⟨ev, tk, hev, htk, hak⟩ ha fun x hx => hreqs x (List.mem_cons_of_mem _ hx)
    · have hok := @createBooking_ok db r now ev tk i hev htk (not_lt.mp hlt)
      simp only [runBookings, hok]
      have hstate' : ∃ ev' tk',
          findOneEvent (commitBooking db r tk i now) r.eventId = some ev' ∧
          findTicket ev'.tickets r.ticketType 0 = some (tk', i) ∧
          tk'.availableQuantity = a - r.quantity := by
        refine ⟨_, { tk with availableQuantity := tk.availableQuantity - r.quantity },
          commitBooking_findOneEvent hev, ?_, ?_⟩
        · simpa using findTicket_setTicketAvail (tk.availableQuantity - r.quantity) htk
        · dsimp only
          omega
      have hrest := ih hstate' (by omega)
        fun x hx => hreqs x (List.mem_cons_of_mem _ hx)
      omega

/-- C1: no oversell. Under serializable isolation every concurrent schedule
of `CreateBooking` calls is equivalent to some serial order, so the property
is stated over an arbitrary serial execution: for any list of requests, all
against the event's first ticket class of type `t` holding `Q ≥ 0` available
tickets, the sum of the quantities granted to the calls that succeed never
exceeds `Q`. -/
theorem no_oversell {db : DB} {eid : ℕ} {t : String} {ev : Event}
    {tk : TicketInfo} {i : ℕ} (reqs : List BookingReq) (now : ℤ)
    (hev : findOneEvent db eid = some ev)
    (htk : findTicket ev.tickets t 0 = some (tk, i))
    (hQ : 0 ≤ tk.availableQuantity)
    (hreqs : ∀ r ∈ reqs, r.eventId = eid ∧ r.ticketType = t) :
    (runBookings db reqs now).2 ≤ tk.availableQuantity :=
  runBookings_le reqs now ⟨ev, tk, hev, htk, rfl⟩ hQ hreqs

/-- Witness for C1: four serialized requests for 3 VIP tickets each against
the 10 available of scenario A grant at most 10 in total (in fact 9: three
succeed, the fourth fails). -/
theorem no_oversell_witness :
    (runBookings dbA [reqA, reqA, reqA, reqA] 0).2 ≤ 10 :=
  @no_oversell dbA 1 "VIP" evA tkVIP 0 [reqA, reqA, reqA, reqA] 0 rfl rfl
    (by decide) (by decide)

theorem filter_beq_length_le_one {l : List α} {f : α → ℕ}
    (h : (l.map f).Nodup) (k : ℕ) :
    (l.filter (fun x => f x == k)).length ≤ 1 := by
  induction l with
  | nil => simp
  | cons x xs ih =>
    rw [List.map_cons, List.nodup_cons] at h
    cases hx : f x == k with
    | true =>
      have hnil : xs.filter (fun y => f y == k) = [] := by
        rw [List.filter_eq_nil_iff]
        intro y hy hyk
        have h1 : f y = k := by simpa using hyk
        have h2 : f x = k := by simpa using hx
        have : f x ∈ List.map f xs := by
          rw [h2, ← h1]
          exact List.mem_map_of_mem f hy
        exact h.1 this
      simp [List.filter_cons, hx, hnil]
    | false =>
      simp only [List.filter_cons, hx, Bool.false_eq_true, if_false]
      exact ih h.2

/-- C7: `DeleteCategoryWithCascade` resolves the category, lists the events
whose `category_name` equals its name, deletes those events' bookings, then
the events, then the category; after a successful run (unique ids assumed,
as the ObjectID generator guarantees) the category, every matching event and
every booking of a matching event all report not-found. -/
theorem deleteCategoryWithCascade_spec {db : DB} {cid : ℕ} {cat : Category}
    (hcat : getCategoryByID db cid = .ok cat)
    (hcatN : (db.categories.map Category.id).Nodup)
    (hevN : (db.events.map Event.id).Nodup)
    (hbkN : (db.bookings.map Booking.id).Nodup) :
    (deleteCategoryWithCascade db cid).2 = .ok () ∧
    getCategoryByID (deleteCategoryWithCascade db cid).1 cid
      = .error "category not found" ∧
    (∀ e ∈ db.events, e.categoryName = cat.name →
      getEventByID (deleteCategoryWithCascade db cid).1 e.id
        = .error "event not found") ∧
    (∀ e ∈ db.events, e.categoryName = cat.name →
      ∀ b ∈ db.bookings, b.eventId = e.id →
        getBookingByID (deleteCategoryWithCascade db cid).1 b.id
          = .error "booking not found") := by
  have hfc : db.categories.find? (fun c => c.id == cid) = some cat := by
    unfold getCategoryByID at hcat
    cases hf : db.categories.find? (fun c => c.id == cid) with
    | none => rw [hf] at hcat; cases hcat
    | some c =>
      rw [hf] at hcat
      dsimp only at hcat
      cases hcat
      rfl
  have hgec : getEventsByCategory db cid
      = .ok (db.events.filter (fun e => e.categoryName == cat.name)) := by
    unfold getEventsByCategory getCategoryByID
    rw [hfc]
  have hrun : deleteCategoryWithCascade db cid
      = ({ categories := (deleteOne (fun c => c.id == cid) db.categories).1,
           events := (deleteMany (fun e => e.categoryName == cat.name)
             (purgeBookings (db.events.filter
               (fun e => e.categoryName == cat.name)) db).events).1,
           bookings := (purgeBookings (db.events.filter
             (fun e => e.categoryName == cat.name)) db).bookings,
           nextId := (purgeBookings (db.events.filter
             (fun e => e.categoryName == cat.name)) db).nextId },
         .ok ()) := by
    unfold deleteCategoryWithCascade
    rw [hcat, hgec]
    dsimp only
    rw [purgeBookings_categories, deleteOne_count_of_find?_eq_some hfc]
    rfl
  rw [hrun]
  dsimp only
  refine ⟨rfl, ?_, ?_, ?_⟩
  · unfold getCategoryByID
    have hnone : ((deleteOne (fun c => c.id == cid) db.categories).1).find?
        (fun c => c.id == cid) = none := by
      rw [List.find?_eq_none]
      intro x hx
      simp [deleteOne_no_more (filter_beq_length_le_one hcatN cid) x hx]
    rw [hnone]
  · intro e he hname
    unfold getEventByID findOneEvent
    dsimp only
    have hnone : ((deleteMany (fun e' => e'.categoryName == cat.name)
        (purgeBookings (db.events.filter
          (fun e' => e'.categoryName == cat.name)) db).events).1).find?
        (fun x => x.id == e.id) = none := by
      rw [purgeBookings_events, List.find?_eq_none]
      intro x hx hpx
      simp only [deleteMany, List.mem_filter] at hx
      obtain ⟨hxl, hxname⟩ := hx
      have hxe : x = e := List.inj_on_of_nodup_map hevN hxl he (by simpa using hpx)
      subst hxe
      rw [hname] at hxname
      simp at hxname
    rw [hnone]
  · intro e he hname b hb hbe
    unfold getBookingByID
    dsimp only
    have hnone : ((purgeBookings (db.events.filter
        (fun e' => e'.categoryName == cat.name)) db).bookings).find?
        (fun x => x.id == b.id) = none := by
      rw [List.find?_eq_none]
      intro x hx hpx
      rw [mem_purgeBookings] at hx
      obtain ⟨hxl, hxE⟩ := hx
      have hxb : x = b := List.inj_on_of_nodup_map hbkN hxl hb (by simpa using hpx)
      subst hxb
      exact hxE e (List.mem_filter.mpr ⟨he, by simpa using hname⟩) hbe
    rw [hnone]

/-- Witness for C7, scenario C: cascading deletion of category 9 of `dbC`
(two events, one booking each) leaves the category, both events and both
bookings unretrievable. -/
theorem deleteCategoryWithCascade_spec_witness :
    (deleteCategoryWithCascade dbC 9).2 = .ok () ∧
    getCategoryByID (deleteCategoryWithCascade dbC 9).1 9
      = .error "category not found" ∧
    getEventByID (deleteCategoryWithCascade dbC 9).1 1 = .error "event not found" ∧
    getEventByID (deleteCategoryWithCascade dbC 9).1 2 = .error "event not found" ∧
    getBookingByID (deleteCategoryWithCascade dbC 9).1 3
      = .error "booking not found" ∧
    getBookingByID (deleteCategoryWithCascade dbC 9).1 4
      = .error "booking not found" := by
  have h := @deleteCategoryWithCascade_spec dbC 9
    { id := 9, name := "Music", createdAt := 0 } rfl (by decide) (by decide) (by decide)
  exact ⟨h.1, h.2.1,
    h.2.2.1 evC1 (by decide) rfl,
    h.2.2.1 evC2 (by decide) rfl,
    h.2.2.2 evC1 (by decide) rfl bkC1 (by decide) rfl,
    h.2.2.2 evC2 (by decide) rfl bkC2 (by decide) rfl⟩

/-- C8: one sweep of `DeleteExpiredEvents` removes exactly the events whose
`end_time` is strictly before `now`, together with those events' bookings,
and returns the count of events removed; an event whose end time is not in
the past stays retrievable, as do its bookings (unique ids assumed, as the
ObjectID generator guarantees). -/
theorem deleteExpiredEvents_spec (db : DB) (now : ℤ)
    (hevN : (db.events.map Event.id).Nodup)
    (hbkN : (db.bookings.map Booking.id).Nodup) :
    (deleteExpiredEvents db now).2
      = (db.events.filter (fun e => decide (e.endTime < now))).length ∧
    (∀ e ∈ db.events, e.endTime < now →
      getEventByID (deleteExpiredEvents db now).1 e.id = .error "event not found" ∧
      ∀ b ∈ db.bookings, b.eventId = e.id →
        getBookingByID (deleteExpiredEvents db now).1 b.id
          = .error "booking not found") ∧
    (∀ e ∈ db.events, ¬ e.endTime < now →
      getEventByID (deleteExpiredEvents db now).1 e.id = .ok e ∧
      ∀ b ∈ db.bookings, b.eventId = e.id →
        getBookingByID (deleteExpiredEvents db now).1 b.id = .ok b) := by
  have hrun : deleteExpiredEvents db now
      = ({ categories := (purgeBookings (db.events.filter
             (fun e => decide (e.endTime < now))) db).categories,
           events := db.events.filter (fun x => !(decide (x.endTime < now))),
           bookings := (purgeBookings (db.events.filter
             (fun e => decide (e.endTime < now))) db).bookings,
           nextId := (purgeBookings (db.events.filter
             (fun e => decide (e.endTime < now))) db).nextId },
         (db.events.filter (fun e => decide (e.endTime < now))).length) := by
    unfold deleteExpiredEvents deleteMany
    dsimp only
    rw [purgeBookings_events]
  rw [hrun]
  dsimp only
  refine ⟨rfl, ?_, ?_⟩
  · intro e he hexp
    constructor
    · unfold getEventByID findOneEvent
      dsimp only
      have hnone : (db.events.filter
          (fun x => !(decide (x.endTime < now)))).find?
          (fun x => x.id == e.id) = none := by
        rw [List.find?_eq_none]
        intro x hx hpx
        obtain ⟨hxl, hxk⟩ := List.mem_filter.mp hx
        have hxe : x = e := List.inj_on_of_nodup_map hevN hxl he (by simpa using hpx)
        subst hxe
        simp [hexp] at hxk
      rw [hnone]
    · intro b hb hbe
      unfold getBookingByID
      dsimp only
      have hnone : ((purgeBookings (db.events.filter
          (fun e' => decide (e'.endTime < now))) db).bookings).find?
          (fun x => x.id == b.id) = none := by
        rw [List.find?_eq_none]
        intro x hx hpx
        rw [mem_purgeBookings] at hx
        obtain ⟨hxl, hxE⟩ := hx
        have hxb : x = b := List.inj_on_of_nodup_map hbkN hxl hb (by simpa using hpx)
        subst hxb
        exact hxE e (List.mem_filter.mpr ⟨he, by simpa using hexp⟩) hbe
      rw [hnone]
  · intro e he hfut
    constructor
    · unfold getEventByID findOneEvent
      dsimp only
      have hfind : (db.events.filter
          (fun x => !(decide (x.endTime < now)))).find?
          (fun x => x.id == e.id) = some e := by
        apply find?_eq_some_of_unique
        · exact List.mem_filter.mpr ⟨he, by simpa using hfut⟩
        · simp
        · intro y hy hpy
          exact List.inj_on_of_nodup_map hevN (List.mem_filter.mp hy).1 he
            (by simpa using hpy)
      rw [hfind]
    · intro b hb hbe
      unfold getBookingByID
      dsimp only
      have hfind : ((purgeBookings (db.events.filter
          (fun e' => decide (e'.endTime < now))) db).bookings).find?
          (fun x => x.id == b.id) = some b := by
        apply find?_eq_some_of_unique
        · rw [mem_purgeBookings]
          refine ⟨hb, ?_⟩
          intro e' he' hbe'
          obtain ⟨he'l, he'exp⟩ := List.mem_filter.mp he'
          have : e' = e := List.inj_on_of_nodup_map hevN he'l he (by rw [← hbe, hbe'])
          subst this
          exact hfut (by simpa using he'exp)
        · simp
        · intro y hy hpy
          rw [mem_purgeBookings] at hy
          exact List.inj_on_of_nodup_map hbkN hy.1 hb (by simpa using hpy)
      rw [hfind]

/-- Witness for C8, scenario D: sweeping `dbD` at `now = 200` (one event
ended at 100, one ends at 300) removes exactly one event and its booking;
the future event and its booking stay retrievable. -/
theorem deleteExpiredEvents_spec_witness :
    (deleteExpiredEvents dbD 200).2 = 1 ∧
    getEventByID (deleteExpiredEvents dbD 200).1 1 = .error "event not found" ∧
    getBookingByID (deleteExpiredEvents dbD 200).1 3 = .error "booking not found" ∧
    getEventByID (deleteExpiredEvents dbD 200).1 2 = .ok evFuture ∧
    getBookingByID (deleteExpiredEvents dbD 200).1 4 = .ok bkC2 := by
  have h := deleteExpiredEvents_spec dbD 200 (by decide) (by decide)
  have hpast := h.2.1 evPast (by decide) (by decide)
  have hfut := h.2.2 evFuture (by decide) (by decide)
  exact ⟨h.1.trans (by rfl), hpast.1, hpast.2 bkC1 (by decide) rfl,
    hfut.1, hfut.2 bkC2 (by decide) rfl⟩

/-- C10: category-name matching is asymmetric. Event creation validates the
category via the case-insensitive anchored `GetCategoryByName`, while event
listing, counting and cascade deletion match `category_name` exactly and
case-sensitively. With a category named "Music" and an event filed under
"music": creating such an event succeeds, `DeleteCategoryWithCascade`
deletes the category but leaves the event and its booking in place, and the
non-cascading `DeleteCategory` counts zero events and succeeds despite the
referencing event. -/
theorem category_name_case_mismatch :
    createEvent dbMismatch evNewLower 0 = .ok dbAfterCreateLower ∧
    getCategoryByName dbMismatch "music"
      = .ok { id := 1, name := "Music", createdAt := 0 } ∧
    (deleteCategoryWithCascade dbMismatch 1).2 = .ok () ∧
    getCategoryByID (deleteCategoryWithCascade dbMismatch 1).1 1
      = .error "category not found" ∧
    getEventByID (deleteCategoryWithCascade dbMismatch 1).1 2 = .ok evLower ∧
    getBookingByID (deleteCategoryWithCascade dbMismatch 1).1 3 = .ok bkLower ∧
    deleteCategory dbMismatch 1 = .ok { dbMismatch with categories := [] } :=
  ⟨rfl, rfl, rfl, rfl, rfl, rfl, rfl⟩

end EventHorizon
